import Mathlib

/-
Verification of the zk-notes launcher extension (`src/lib/zk.ts`).

The TypeScript source shells out to the external `zk` binary and defensively
parses its mixed text/JSON output.  This file gives a shallow embedding of
that parsing and dispatch logic:

* JavaScript string primitives (`trim`, `split`, `includes`, `toLowerCase`,
  `slice`, `startsWith`, `endsWith`) are modelled as structurally recursive
  functions over `List Char`, so every definition evaluates by kernel
  reduction.  `toLowerCase` is modelled for ASCII letters, which covers every
  pattern the source matches against ("found", "notes", "warning", ...).
* The subprocess is abstracted as a function `List String → Except String
  String` from an argument vector to either captured output or the message of
  the thrown error; `JSON.parse` is abstracted as a function `String → Except
  String Json` (the `String` in the error is the exception message).  All
  theorems quantify over these, so they hold in particular for the real
  subprocess and the real JSON parser.
* Functions that invoke the subprocess additionally return the list of
  argument vectors of the invocations they performed, in order, so that
  claims about how many subprocess calls a search performs are statable.
  The `.1` projection is the returned/thrown value, the `.2` projection the
  invocation trace.
-/

/-! ## JavaScript string primitives, modelled over `List Char` -/

/-- Lower-cases one ASCII letter; other characters are unchanged.  Models the
effect of JavaScript `toLowerCase` on the ASCII inputs the source deals
with. -/
def asciiLowerChar (c : Char) : Char :=
  if 'A' ≤ c && c ≤ 'Z' then Char.ofNat (c.toNat + 32) else c

/-- Models JavaScript `s.toLowerCase()` (ASCII range). -/
def asciiLower (s : String) : String :=
  ⟨s.data.map asciiLowerChar⟩

/-- Whitespace characters removed by JavaScript `trim` (the ones that occur in
subprocess output). -/
def isWSChar (c : Char) : Bool :=
  c == ' ' || c == '\t' || c == '\n' || c == '\r'

/-- Removes leading and trailing whitespace from a character list. -/
def trimL (cs : List Char) : List Char :=
  ((cs.dropWhile isWSChar).reverse.dropWhile isWSChar).reverse

/-- Models JavaScript `s.trim()`. -/
def jsTrim (s : String) : String := ⟨trimL s.data⟩

/-- Splits a character list at every occurrence of `sep`; the separators are
dropped and empty segments are kept, as in JavaScript `split`. -/
def splitChar (sep : Char) : List Char → List (List Char)
  | [] => [[]]
  | c :: cs =>
    let r := splitChar sep cs
    if c == sep then [] :: r
    else
      match r with
      | [] => [[c]]
      | h :: t => (c :: h) :: t

/-- Models JavaScript `s.split(sep)` for a one-character separator (the source
only ever splits on `"\n"` and `"/"`). -/
def jsSplit (sep : Char) (s : String) : List String :=
  (splitChar sep s.data).map (fun l => ⟨l⟩)

/-- Joins character lists with a separator character between consecutive
elements; models JavaScript `Array.prototype.join`. -/
def intercalChar (sep : Char) : List (List Char) → List Char
  | [] => []
  | [x] => x
  | x :: y :: t => x ++ sep :: intercalChar sep (y :: t)

/-- Joins strings with `"\n"`, as `[..].join("\n")` does in the source. -/
def joinNL (ls : List String) : String :=
  ⟨intercalChar '\n' (ls.map String.data)⟩

/-- Substring containment on character lists: `pat` occurs contiguously in the
first argument.  The empty pattern occurs in every list. -/
def containsSub : List Char → List Char → Bool
  | [], pat => pat.isEmpty
  | h :: t, pat => pat.isPrefixOf (h :: t) || containsSub t pat

/-- Models JavaScript `s.includes(pat)`. -/
def jsIncludes (s pat : String) : Bool :=
  containsSub s.data pat.data

/-- Models JavaScript `s.startsWith(p)`. -/
def jsStartsWith (s p : String) : Bool :=
  p.data.isPrefixOf s.data

/-- Models JavaScript `s.endsWith(p)`. -/
def jsEndsWith (s p : String) : Bool :=
  p.data.isSuffixOf s.data

/-- Models JavaScript `s.slice(n)` for a non-negative index. -/
def jsDrop (n : Nat) (s : String) : String := ⟨s.data.drop n⟩

/-- Drops the last `n` characters; used to model `replace(/\.md$/, "")`. -/
def jsDropRight (n : Nat) (s : String) : String :=
  ⟨s.data.take (s.data.length - n)⟩

/-- Index of the first occurrence of `a`, if any. -/
def firstIdxOf (a : Char) : List Char → Option Nat
  | [] => none
  | x :: xs => if x = a then some 0 else (firstIdxOf a xs).map (· + 1)

/-- Index of the last occurrence of `a`, if any. -/
def lastIdxOf (a : Char) : List Char → Option Nat
  | [] => none
  | x :: xs =>
    match lastIdxOf a xs with
    | some j => some (j + 1)
    | none => if x = a then some 0 else none

/-- Models the JavaScript regex match `cs.match(/o[\s\S]*c/)` for single
characters `o` and `c` (the source uses it with `[`/`]` and with `{`/`}`):
the leftmost match starts at the first occurrence of `o`, and the greedy
`[\s\S]*` extends it to the last occurrence of `c` after that point.  Returns
the matched character span, or `none` when the regex does not match. -/
def regexSpan (o c : Char) (cs : List Char) : Option (List Char) :=
  match firstIdxOf o cs with
  | none => none
  | some i =>
    match lastIdxOf c (cs.drop (i + 1)) with
    | none => none
    | some k => some ((cs.drop i).take (k + 2))

/-- The span a reader of the specification would describe: the substring from
the first occurrence of `o` through the last occurrence of `c`, when that
substring exists.  Used to restate claim C2 independently of the regex
model. -/
def spanFirstLast (o c : Char) (cs : List Char) : Option (List Char) :=
  match firstIdxOf o cs, lastIdxOf c cs with
  | some i, some j =>
    if i < j then some ((cs.drop i).take (j - i + 1)) else none
  | _, _ => none

/-- Decides the anchored case-insensitive regex `/^Found \d+ notes?$/i` from
`extractJson` and the plain-text fallback of `listNotes`. -/
def isFoundNotesLine (s : String) : Bool :=
  let l := (asciiLower s).data
  "found ".data.isPrefixOf l &&
    (let rest := l.drop 6
     let ds := rest.takeWhile Char.isDigit
     !ds.isEmpty && (rest.drop ds.length == " note".data || rest.drop ds.length == " notes".data))

/-! ## Data model -/

/-- The note reference produced for the launcher UI (`ZKNote` in the source;
the optional `content` field is never populated by the functions modelled
here and is omitted). -/
structure ZKNote where
  id : String
  title : String
  path : String
  deriving DecidableEq

/-- JSON values, as produced by `JSON.parse` on the tool's output. -/
inductive Json where
  | null
  | bool (b : Bool)
  | num (n : Int)
  | str (s : String)
  | arr (elems : List Json)
  | obj (fields : List (String × Json))

/-- The three fields the note-mapping code reads from one parsed JSON note
object.  `none` models a field that is absent (or `null`/`undefined`); the
tool emits string values for these fields, so present fields are modelled as
strings. -/
structure RawNote where
  id : Option String
  title : Option String
  path : Option String
  deriving DecidableEq

/-- Looks up a string-valued field of a JSON object; yields `none` for a
non-object, an absent key, or a non-string value (all of which behave as
absent in the source's field-fallback expressions). -/
def jsonStrField (j : Json) (key : String) : Option String :=
  match j with
  | Json.obj fields =>
    match fields.find? (fun f => f.1 == key) with
    | some (_, Json.str s) => some s
    | _ => none
  | _ => none

/-- Extracts the three fields the note mapping reads from a parsed value. -/
def toRawNote (j : Json) : RawNote :=
  ⟨jsonStrField j "id", jsonStrField j "title", jsonStrField j "path"⟩

/-- Models the JavaScript expression `v || d` for a string-or-absent value:
the default is taken when the value is absent or is the empty string (the
only falsy string). -/
def jsOr (v : Option String) (d : String) : String :=
  match v with
  | some s => if s == "" then d else s
  | none => d

/-- Last path segment with a trailing `".md"` removed: models
`path.split("/").pop()?.replace(/\.md$/, "")` (the `split` of a string is
never empty, so `pop` always yields the last segment). -/
def titleFromPath (path : String) : String :=
  let seg := (jsSplit '/' path).getLastD ""
  if jsEndsWith seg ".md" then jsDropRight 3 seg else seg

/-- The note mapping repeated throughout the source (zk.ts lines 140-144,
155-159, 207-211, ...):
`id: note.id || note.path || ""`,
`title: note.title || note.path?.split("/").pop()?.replace(/\.md$/, "") || "Untitled"`,
`path: note.path || note.id || ""`. -/
def noteFromRaw (n : RawNote) : ZKNote :=
  ⟨jsOr n.id (jsOr n.path ""),
   jsOr n.title
     (match n.path with
      | some p => jsOr (some (titleFromPath p)) "Untitled"
      | none => "Untitled"),
   jsOr n.path (jsOr n.id "")⟩

/-- Note constructed from one element of the parsed JSON array. -/
def noteFromJson (j : Json) : ZKNote :=
  noteFromRaw (toRawNote j)

/-- Restates claim C6's reading of the note mapping, where a fallback is taken
only when a field is missing (not when it is present but empty). -/
def noteFromRawMissingOnly (n : RawNote) : ZKNote :=
  ⟨n.id.getD (n.path.getD ""),
   n.title.getD
     (match n.path with
      | some p => if titleFromPath p == "" then "Untitled" else titleFromPath p
      | none => "Untitled"),
   n.path.getD (n.id.getD "")⟩

/-- Claim C6's reading of the mapping, at the JSON level. -/
def noteFromJsonMissingOnly (j : Json) : ZKNote :=
  noteFromRawMissingOnly (toRawNote j)

/-- The `if (!Array.isArray(notes)) throw ... ; return notes.map(...)` step
shared by every JSON-reading search function. -/
def notesFromJson : Json → Except String (List ZKNote)
  | Json.arr elems => Except.ok (elems.map noteFromJson)
  | _ => Except.error "Expected array of notes"

/-! ## The `execZk` success path (zk.ts lines 34-91) -/

/-- The `isInformationalMessage` predicate defined inside `execZk`
(zk.ts lines 48-58). -/
def isInformationalMessage (text : String) : Bool :=
  if jsTrim text == "" then true
  else
    let lower := asciiLower text
    if jsIncludes lower "found" && jsIncludes lower "notes" then true
    else if jsIncludes lower "warning" then true
    else false

/-- The `hasValidOutput` test of zk.ts lines 63-68: stdout is truthy and
contains `[`, `{`, `.md`, or any non-whitespace character. -/
def hasValidOutput (stdout : String) : Bool :=
  !(stdout == "") &&
    (jsIncludes stdout "[" || jsIncludes stdout "\x7b" || jsIncludes stdout ".md" ||
      !(jsTrim stdout == ""))

/-- The combined output of zk.ts lines 42-45:
`[stdout, stderr].filter(Boolean).join("\n").trim()`. -/
def combinedOutput (stdout stderr : String) : String :=
  jsTrim (joinNL ([stdout, stderr].filter (fun s => !(s == ""))))

/-- The catch block of `execZk` (zk.ts lines 76-91) applied to an `Error`
that carries only a message (no captured `stdout`/`stderr` properties), which
is the shape of the error thrown at line 71: `error.stdout` and
`error.stderr` are `undefined`, so `allOutput` is just the message, and the
recovered `combined` is `""`, falling back to `allOutput`. -/
def execZkCatch (msg : String) : Except String String :=
  if jsIncludes (asciiLower msg) "found" && jsIncludes (asciiLower msg) "notes" then
    Except.ok msg
  else
    Except.error ("zk command failed: " ++ msg)

/-- The behaviour of `execZk` when the subprocess itself exits successfully
with the given captured `stdout` and `stderr` (zk.ts lines 34-91).  When
stderr is non-empty, non-informational, and stdout has no valid output, the
`throw new Error(stderr)` at line 71 is raised inside the `try` block and is
therefore handled by the catch block at line 76; otherwise the combined
output is returned. -/
def execZkSuccess (stdout stderr : String) : Except String String :=
  if !(stderr == "") && !isInformationalMessage stderr && !hasValidOutput stdout then
    execZkCatch stderr
  else
    Except.ok (combinedOutput stdout stderr)

/-- The three-part informational test exactly as claim C1 words it: stderr is
empty, or its lowercase form contains both "found" and "notes", or contains
"warning". -/
def stderrInformationalTest (stderr : String) : Bool :=
  stderr == "" ||
    (jsIncludes (asciiLower stderr) "found" && jsIncludes (asciiLower stderr) "notes") ||
    jsIncludes (asciiLower stderr) "warning"

/-! ## `extractJson` (zk.ts lines 97-125) -/

/-- The cleaning pass of `extractJson`: drops every line that is empty after
trimming, matches `/^Found \d+ notes?$/i`, or whose lowercase form contains
`"warning:"`; the surviving lines are re-joined with `"\n"`. -/
def cleanedLines (output : String) : List Char :=
  intercalChar '\n'
    ((splitChar '\n' output.data).filter (fun line =>
      let trimmed := trimL line
      !trimmed.isEmpty && !isFoundNotesLine ⟨trimmed⟩ &&
        !jsIncludes (asciiLower ⟨trimmed⟩) "warning:"))

/-- `extractJson` (zk.ts lines 97-125): clean the output, then return the
`/\[[\s\S]*\]/` match if any, else the `/\{[\s\S]*\}/` match if any, else the
trimmed cleaned text. -/
def extractJson (output : String) : String :=
  let cleaned := cleanedLines output
  match regexSpan '[' ']' cleaned with
  | some m => ⟨m⟩
  | none =>
    match regexSpan '{' '}' cleaned with
    | some m => ⟨m⟩
    | none => ⟨trimL cleaned⟩

/-- Claim C2's description of `extractJson`: the substring of the cleaned
text from the first `[` through the last `]` when that substring exists,
else from the first `{` through the last `}`, else the trimmed cleaned
text. -/
def extractJsonSpec (output : String) : String :=
  let cleaned := cleanedLines output
  match spanFirstLast '[' ']' cleaned with
  | some m => ⟨m⟩
  | none =>
    match spanFirstLast '{' '}' cleaned with
    | some m => ⟨m⟩
    | none => ⟨trimL cleaned⟩

/-! ## The search functions (zk.ts lines 130-480)

Each function is written against an abstract subprocess
`ex : List String → Except String String` and an abstract JSON parser
`parse : String → Except String Json`, and returns the `Except` result
paired with the trace of subprocess invocations it performed. -/

/-- One subprocess invocation followed by `extractJson`, `JSON.parse` and the
array check — the shared `try` body of every JSON-format search. -/
def execThenParse (ex : List String → Except String String)
    (parse : String → Except String Json) (args : List String) :
    Except String (List ZKNote) :=
  match ex args with
  | Except.ok output =>
    match parse (extractJson output) with
    | Except.ok j => notesFromJson j
    | Except.error e => Except.error e
  | Except.error e => Except.error e

/-- The recovery attempt repeated in every catch block: when the error
message's lowercase form contains both "found" and "notes", re-run
`extractJson` and `JSON.parse` on the message itself and accept the result
only if it is an array. -/
def tryRecover (parse : String → Except String Json) (errorMessage : String) :
    Option (List ZKNote) :=
  if jsIncludes (asciiLower errorMessage) "found" &&
      jsIncludes (asciiLower errorMessage) "notes" then
    match parse (extractJson errorMessage) with
    | Except.ok (Json.arr elems) => some (elems.map noteFromJson)
    | _ => none
  else none

/-- The shared shape of `searchByTag`, `searchByDate` and `searchByLinks`
(their bodies are identical in the source apart from the argument vector):
run the JSON search, on failure attempt recovery, otherwise return `[]`. -/
def jsonListSearch (ex : List String → Except String String)
    (parse : String → Except String Json) (args : List String) :
    Except String (List ZKNote) × List (List String) :=
  match execThenParse ex parse args with
  | Except.ok r => (Except.ok r, [args])
  | Except.error errorMessage =>
    match tryRecover parse errorMessage with
    | some r => (Except.ok r, [args])
    | none => (Except.ok [], [args])

/-- Argument vector of the primary `listNotes` invocation (zk.ts line 132). -/
def listJsonArgs : List String :=
  ["list", "--format", "json", "--sort", "modified"]

/-- Argument vector of the plain-text fallback invocation (zk.ts line 168). -/
def listPlainArgs : List String :=
  ["list", "--sort", "modified"]

/-- The plain-text fallback parsing of `listNotes` (zk.ts lines 169-182):
keep every line that is non-empty after trimming and is not a
`Found N note(s)` line; each kept line becomes a note whose id and path are
the trimmed line and whose title is derived from it. -/
def parsePlainLines (output : String) : List ZKNote :=
  ((jsSplit '\n' output).filter (fun line =>
      !(jsTrim line == "") && !isFoundNotesLine (jsTrim line))).map
    (fun line =>
      let path := jsTrim line
      ⟨path, jsOr (some (titleFromPath path)) "Untitled", path⟩)

/-- `listNotes` (zk.ts lines 130-191), returning the result together with the
trace of subprocess invocations. -/
def listNotesT (ex : List String → Except String String)
    (parse : String → Except String Json) :
    Except String (List ZKNote) × List (List String) :=
  match execThenParse ex parse listJsonArgs with
  | Except.ok r => (Except.ok r, [listJsonArgs])
  | Except.error errorMessage =>
    match tryRecover parse errorMessage with
    | some r => (Except.ok r, [listJsonArgs])
    | none =>
      match ex listPlainArgs with
      | Except.ok output =>
        (Except.ok (parsePlainLines output), [listJsonArgs, listPlainArgs])
      | Except.error fallbackMessage =>
        (if jsIncludes (asciiLower fallbackMessage) "found" &&
            jsIncludes (asciiLower fallbackMessage) "notes" then
           Except.error fallbackMessage
         else Except.error ("Failed to list notes: " ++ errorMessage),
         [listJsonArgs, listPlainArgs])

/-- Argument vector of `searchByTag` (zk.ts line 198). -/
def searchByTagArgs (tag : String) : List String :=
  ["list", "--format", "json", "--no-input", "--quiet", "--tag", tag]

/-- `searchByTag` (zk.ts lines 196-235). -/
def searchByTagT (ex : List String → Except String String)
    (parse : String → Except String Json) (tag : String) :
    Except String (List ZKNote) × List (List String) :=
  jsonListSearch ex parse (searchByTagArgs tag)

/-- Argument vector built by the date-pattern dispatch of `searchByDate`
(zk.ts lines 241-269). -/
def searchByDateArgs (dateQuery : String) : List String :=
  let base := ["list", "--format", "json", "--no-input", "--quiet"]
  let lowerQuery := asciiLower dateQuery
  if lowerQuery == "today" then base ++ ["--created", "today"]
  else if lowerQuery == "yesterday" then base ++ ["--created", "yesterday"]
  else if lowerQuery == "week" || lowerQuery == "this week" then
    base ++ ["--created-after", "last monday"]
  else if lowerQuery == "month" || lowerQuery == "this month" then
    base ++ ["--created-after", "last month"]
  else if lowerQuery == "recent" || lowerQuery == "modified" then
    base ++ ["--sort", "modified"]
  else if jsStartsWith lowerQuery "created:" then
    base ++ ["--created", jsTrim (jsDrop 8 dateQuery)]
  else if jsStartsWith lowerQuery "modified:" then
    base ++ ["--modified", jsTrim (jsDrop 9 dateQuery)]
  else if jsStartsWith lowerQuery "after:" then
    base ++ ["--created-after", jsTrim (jsDrop 6 dateQuery)]
  else if jsStartsWith lowerQuery "before:" then
    base ++ ["--created-before", jsTrim (jsDrop 7 dateQuery)]
  else base ++ ["--created", dateQuery]

/-- `searchByDate` (zk.ts lines 240-308). -/
def searchByDateT (ex : List String → Except String String)
    (parse : String → Except String Json) (dateQuery : String) :
    Except String (List ZKNote) × List (List String) :=
  jsonListSearch ex parse (searchByDateArgs dateQuery)

/-- The four link-search modes of `searchByLinks`. -/
inductive LinkMode where
  | linkedBy
  | linkTo
  | related
  | orphan
  deriving DecidableEq

/-- Argument vector of `searchByLinks` (zk.ts lines 318-324). -/
def searchByLinksArgs (linkQuery : String) (mode : LinkMode) : List String :=
  let base := ["list", "--format", "json", "--no-input", "--quiet", "--sort", "modified"]
  match mode with
  | LinkMode.orphan => base ++ ["--orphan"]
  | LinkMode.linkedBy => base ++ ["--linked-by", linkQuery]
  | LinkMode.linkTo => base ++ ["--link-to", linkQuery]
  | LinkMode.related => base ++ ["--related", linkQuery]

/-- `searchByLinks` (zk.ts lines 317-362). -/
def searchByLinksT (ex : List String → Except String String)
    (parse : String → Except String Json) (linkQuery : String) (mode : LinkMode) :
    Except String (List ZKNote) × List (List String) :=
  jsonListSearch ex parse (searchByLinksArgs linkQuery mode)

/-- Argument vector of the regular match search (zk.ts line 427). -/
def searchMatchArgs (query : String) : List String :=
  ["list", "--format", "json", "--no-input", "--quiet", "--sort", "modified",
   "--match", query]

/-- The regular match search with its fallbacks (zk.ts lines 426-479): run the
`--match` search; on failure attempt recovery from the error message; then
fall back to `listNotes` filtered client-side on title or path. -/
def searchNotesMatchT (ex : List String → Except String String)
    (parse : String → Except String Json) (query : String) :
    Except String (List ZKNote) × List (List String) :=
  match execThenParse ex parse (searchMatchArgs query) with
  | Except.ok r => (Except.ok r, [searchMatchArgs query])
  | Except.error errorMessage =>
    match tryRecover parse errorMessage with
    | some r => (Except.ok r, [searchMatchArgs query])
    | none =>
      match listNotesT ex parse with
      | (Except.ok allNotes, tr) =>
        let queryLower := asciiLower query
        (Except.ok (allNotes.filter (fun note =>
            jsIncludes (asciiLower note.title) queryLower ||
            jsIncludes (asciiLower note.path) queryLower)),
         searchMatchArgs query :: tr)
      | (Except.error fallbackMessage, tr) =>
        (if jsIncludes (asciiLower fallbackMessage) "found" &&
            jsIncludes (asciiLower fallbackMessage) "notes" then
           Except.error fallbackMessage
         else Except.error ("Failed to search notes: " ++ errorMessage),
         searchMatchArgs query :: tr)

/-- `searchNotes` (zk.ts lines 374-480): dispatch on the query's first
character, then fall through to the regular match search. -/
def searchNotesT (ex : List String → Except String String)
    (parse : String → Except String Json) (query : String) :
    Except String (List ZKNote) × List (List String) :=
  if jsStartsWith query "#" then
    let tag := jsTrim (jsDrop 1 query)
    if !(tag == "") then searchByTagT ex parse tag else listNotesT ex parse
  else if jsStartsWith query "@" then
    let dateQuery := jsTrim (jsDrop 1 query)
    if !(dateQuery == "") then searchByDateT ex parse dateQuery else listNotesT ex parse
  else if jsStartsWith query ">" then
    let noteRef := jsTrim (jsDrop 1 query)
    if !(noteRef == "") then searchByLinksT ex parse noteRef LinkMode.linkedBy
    else listNotesT ex parse
  else if jsStartsWith query "<" then
    let noteRef := jsTrim (jsDrop 1 query)
    if !(noteRef == "") then searchByLinksT ex parse noteRef LinkMode.linkTo
    else listNotesT ex parse
  else if jsStartsWith query "~" then
    let noteRef := jsTrim (jsDrop 1 query)
    if !(noteRef == "") then searchByLinksT ex parse noteRef LinkMode.related
    else listNotesT ex parse
  else if jsStartsWith query "!" &&
      (asciiLower (jsTrim (jsDrop 1 query)) == "orphan" ||
       asciiLower (jsTrim (jsDrop 1 query)) == "orphans") then
    searchByLinksT ex parse "" LinkMode.orphan
  else
    searchNotesMatchT ex parse query

/-! ## Path resolution and note content (zk.ts lines 485-537) -/

/-- The path resolution at the top of `openNote` (zk.ts lines 487-489):
a path beginning with `/` is used as-is; any other path is joined onto the
configured notebook directory.  `joinPath` abstracts Node's `path.join`. -/
def resolveOpenNotePath (joinPath : String → String → String)
    (notebookDir notePath : String) : String :=
  if jsStartsWith notePath "/" then notePath else joinPath notebookDir notePath

/-- The path resolution at the top of `getNoteContent` (zk.ts lines 526-528),
written separately in the source with the same text. -/
def resolveContentNotePath (joinPath : String → String → String)
    (notebookDir notePath : String) : String :=
  if jsStartsWith notePath "/" then notePath else joinPath notebookDir notePath

/-- `getNoteContent` (zk.ts lines 524-537): read the resolved file and return
its content, or on any read failure return `"Error reading note: "` followed
by the failure message.  `readFile` abstracts `fs.promises.readFile`, with
the error message in the `Except.error` case. -/
def getNoteContent (readFile : String → Except String String)
    (joinPath : String → String → String) (notebookDir notePath : String) : String :=
  match readFile (resolveContentNotePath joinPath notebookDir notePath) with
  | Except.ok content => content
  | Except.error msg => "Error reading note: " ++ msg

/-! ## Helper lemmas -/

theorem string_data_append (a b : String) : (a ++ b).data = a.data ++ b.data := by
  cases a
  cases b
  rfl

theorem isPrefixOf_self_append (l t : List Char) : l.isPrefixOf (l ++ t) = true := by
  induction l with
  | nil => simp [List.isPrefixOf]
  | cons x xs ih => simp [List.isPrefixOf, ih]

theorem isPrefixOf_refl_char (l : List Char) : l.isPrefixOf l = true := by
  induction l with
  | nil => simp [List.isPrefixOf]
  | cons x xs ih => simp [List.isPrefixOf, ih]

theorem containsSub_append_self (l p : List Char) : containsSub (l ++ p) p = true := by
  induction l with
  | nil =>
    cases p with
    | nil => rfl
    | cons x xs => simp [containsSub, isPrefixOf_refl_char]
  | cons x xs ih => simp [containsSub, ih]

theorem jsIncludes_append_self (a b : String) : jsIncludes (a ++ b) b = true := by
  unfold jsIncludes
  rw [string_data_append]
  exact containsSub_append_self _ _

theorem jsStartsWith_append_self (p m : String) : jsStartsWith (p ++ m) p = true := by
  unfold jsStartsWith
  rw [string_data_append]
  exact isPrefixOf_self_append _ _

theorem jsStartsWith_char_false {q : String} {a b : Char} (hab : b ≠ a)
    (h : jsStartsWith q ⟨[a]⟩ = true) : jsStartsWith q ⟨[b]⟩ = false := by
  unfold jsStartsWith at h ⊢
  cases q with
  | mk data =>
    cases data with
    | nil => simp [List.isPrefixOf] at h
    | cons x t =>
      simp only [List.isPrefixOf, Bool.and_eq_true, beq_iff_eq] at h
      obtain ⟨hx, -⟩ := h
      have hba : (b == x) = false := by
        cases hv : (b == x) with
        | false => rfl
        | true =>
          have hbx : b = x := by simpa using hv
          exact absurd (hbx.trans hx.symm) hab
      simp [List.isPrefixOf, hba]

/-- Claim C1's three-part informational test implies the source's
`isInformationalMessage`. -/
theorem informational_of_test {stderr : String}
    (h : stderrInformationalTest stderr = true) : isInformationalMessage stderr = true := by
  unfold stderrInformationalTest at h
  unfold isInformationalMessage
  by_cases htrim : (jsTrim stderr == "") = true
  · simp [htrim]
  · have htrim' : (jsTrim stderr == "") = false := by
      cases hv : (jsTrim stderr == "") with
      | false => rfl
      | true => exact absurd hv htrim
    have hne : (stderr == "") = false := by
      cases hv : (stderr == "") with
      | false => rfl
      | true =>
        have hs : stderr = "" := by simpa using hv
        rw [hs] at htrim'
        rw [show (jsTrim "" == "") = true from by decide] at htrim'
        exact Bool.noConfusion htrim'
    rw [hne] at h
    simp only [Bool.false_or] at h
    rcases Bool.or_eq_true _ _ |>.mp h with hF | hW
    · simp [htrim', hF]
    · by_cases hF : (jsIncludes (asciiLower stderr) "found" &&
          jsIncludes (asciiLower stderr) "notes") = true
      · simp [htrim', hF]
      · have hF' : (jsIncludes (asciiLower stderr) "found" &&
            jsIncludes (asciiLower stderr) "notes") = false := by
          cases hv : (jsIncludes (asciiLower stderr) "found" &&
              jsIncludes (asciiLower stderr) "notes") with
          | false => rfl
          | true => exact absurd hv hF
        simp [htrim', hF', hW]

/-! ## Claim theorems -/

/-- C5: for every note path, `openNote` and `getNoteContent` resolve it the
same way: a path beginning with "/" is used as-is, and any other path is
joined onto the configured notes root directory. -/
theorem openNote_getNoteContent_same_resolution
    (joinPath : String → String → String) (notebookDir notePath : String) :
    resolveOpenNotePath joinPath notebookDir notePath =
      resolveContentNotePath joinPath notebookDir notePath ∧
    (jsStartsWith notePath "/" = true →
      resolveOpenNotePath joinPath notebookDir notePath = notePath) ∧
    (jsStartsWith notePath "/" = false →
      resolveOpenNotePath joinPath notebookDir notePath = joinPath notebookDir notePath) := by
  refine ⟨rfl, ?_, ?_⟩ <;> intro h <;> simp [resolveOpenNotePath, h]

/-- Witness for C5 at an absolute and a relative path. -/
theorem openNote_getNoteContent_same_resolution_witness :
    resolveOpenNotePath (fun a b => a ++ "/" ++ b) "/notes" "/abs/n.md" = "/abs/n.md" ∧
    resolveOpenNotePath (fun a b => a ++ "/" ++ b) "/notes" "rel.md" = "/notes" ++ "/" ++ "rel.md" :=
  ⟨(openNote_getNoteContent_same_resolution (fun a b => a ++ "/" ++ b) "/notes" "/abs/n.md").2.1
      (by decide),
   (openNote_getNoteContent_same_resolution (fun a b => a ++ "/" ++ b) "/notes" "rel.md").2.2
      (by decide)⟩

/-- C7: the parsing pipeline (extractJson, then JSON parsing, then note
mapping) is a pure function of the subprocess output string: two runs on the
same exact output string extract the same exact list, independent of any
other state (the embedding threads no state at all). -/
theorem parse_pipeline_deterministic (parse : String → Except String Json)
    (out1 out2 : String) (h : out1 = out2) :
    execThenParse (fun _ => Except.ok out1) parse [] =
      execThenParse (fun _ => Except.ok out2) parse [] := by
  rw [h]

/-- Witness for C7 on a concrete output string. -/
theorem parse_pipeline_deterministic_witness :
    execThenParse (fun _ => Except.ok "Found 1 note\n[]") (fun _ => Except.ok (Json.arr [])) [] =
      execThenParse (fun _ => Except.ok "Found 1 note\n[]") (fun _ => Except.ok (Json.arr [])) [] :=
  parse_pipeline_deterministic (fun _ => Except.ok (Json.arr [])) _ _ rfl

/-- C9: `getNoteContent` never rejects: for every path it resolves with a
string, either the file content on a successful read, or a string beginning
with "Error reading note: " followed by the failure message. -/
theorem getNoteContent_total (readFile : String → Except String String)
    (joinPath : String → String → String) (notebookDir notePath : String) :
    (∀ content,
      readFile (resolveContentNotePath joinPath notebookDir notePath) = Except.ok content →
      getNoteContent readFile joinPath notebookDir notePath = content) ∧
    (∀ msg,
      readFile (resolveContentNotePath joinPath notebookDir notePath) = Except.error msg →
      getNoteContent readFile joinPath notebookDir notePath = "Error reading note: " ++ msg ∧
      jsStartsWith (getNoteContent readFile joinPath notebookDir notePath)
        "Error reading note: " = true) := by
  constructor
  · intro content h
    unfold getNoteContent
    rw [h]
  · intro msg h
    unfold getNoteContent
    rw [h]
    exact ⟨rfl, jsStartsWith_append_self _ _⟩

/-- Witness for C9: a successful read and a failing read. -/
theorem getNoteContent_total_witness :
    getNoteContent (fun p => if p = "/n/a.md" then Except.ok "text" else Except.error "ENOENT")
      (fun a b => a ++ "/" ++ b) "/n" "a.md" = "text" ∧
    getNoteContent (fun p => if p = "/n/a.md" then Except.ok "text" else Except.error "ENOENT")
      (fun a b => a ++ "/" ++ b) "/n" "b.md" = "Error reading note: " ++ "ENOENT" :=
  ⟨(getNoteContent_total (fun p => if p = "/n/a.md" then Except.ok "text" else Except.error "ENOENT")
      (fun a b => a ++ "/" ++ b) "/n" "a.md").1 "text" (by rfl),
   ((getNoteContent_total (fun p => if p = "/n/a.md" then Except.ok "text" else Except.error "ENOENT")
      (fun a b => a ++ "/" ++ b) "/n" "b.md").2 "ENOENT" (by rfl)).1⟩

/-- C1: on a successful subprocess exit, `execZk` distinguishes informational
stderr from real failure by string matching: when stderr is empty, or its
lowercase form contains both "found" and "notes", or contains "warning", the
combined stdout+stderr output is returned; and an error (whose message
carries the stderr text) is thrown only when stderr fails this informational
test and stdout has no valid output. -/
theorem execZk_stderr_heuristic (stdout stderr : String) :
    (stderrInformationalTest stderr = true →
      execZkSuccess stdout stderr = Except.ok (combinedOutput stdout stderr)) ∧
    (∀ e, execZkSuccess stdout stderr = Except.error e →
      jsIncludes e stderr = true ∧ stderrInformationalTest stderr = false ∧
        hasValidOutput stdout = false) := by
  constructor
  · intro h
    have hinfo := informational_of_test h
    unfold execZkSuccess
    simp [hinfo]
  · intro e he
    unfold execZkSuccess at he
    by_cases hcond : (!(stderr == "") && !isInformationalMessage stderr &&
        !hasValidOutput stdout) = true
    · rw [if_pos hcond] at he
      have hsplit := Bool.and_eq_true _ _ |>.mp hcond
      have hinfo : isInformationalMessage stderr = false := by
        have := Bool.and_eq_true _ _ |>.mp hsplit.1
        simpa using this.2
      have hvalid : hasValidOutput stdout = false := by
        simpa using hsplit.2
      have htest : stderrInformationalTest stderr = false := by
        by_contra hne
        have : stderrInformationalTest stderr = true := by
          cases h' : stderrInformationalTest stderr
          · exact absurd h' hne
          · rfl
        rw [informational_of_test this] at hinfo
        exact absurd hinfo (by simp)
      unfold execZkCatch at he
      by_cases hfn : (jsIncludes (asciiLower stderr) "found" &&
          jsIncludes (asciiLower stderr) "notes") = true
      · rw [if_pos hfn] at he
        exact absurd he (by simp)
      · rw [if_neg hfn] at he
        have hmsg : e = "zk command failed: " ++ stderr := by
          have := he
          simp at this
          exact this.symm
        subst hmsg
        exact ⟨jsIncludes_append_self _ _, htest, hvalid⟩
    · rw [if_neg hcond] at he
      exact absurd he (by simp)

/-- Witness for C1: an informational stderr is returned combined, and a fatal
stderr with empty stdout produces an error carrying the stderr text. -/
theorem execZk_stderr_heuristic_witness :
    execZkSuccess "out" "warning: dangling link" =
      Except.ok (combinedOutput "out" "warning: dangling link") ∧
    (jsIncludes "zk command failed: " "fatal" = false ∧
      jsIncludes "zk command failed: fatal" "fatal" = true) ∧
    stderrInformationalTest "fatal" = false ∧ hasValidOutput "" = false := by
  refine ⟨(execZk_stderr_heuristic "out" "warning: dangling link").1 (by decide), ?_, ?_, ?_⟩
  · exact ⟨by decide,
      ((execZk_stderr_heuristic "" "fatal").2 "zk command failed: fatal" (by rfl)).1⟩
  · exact ((execZk_stderr_heuristic "" "fatal").2 "zk command failed: fatal" (by rfl)).2.1
  · exact ((execZk_stderr_heuristic "" "fatal").2 "zk command failed: fatal" (by rfl)).2.2

/-- The greedy-regex span model agrees with the first-to-last description
whenever the two delimiters are distinct characters. -/
theorem regexSpan_eq_spanFirstLast (o c : Char) (h : o ≠ c) (cs : List Char) :
    regexSpan o c cs = spanFirstLast o c cs := by
  induction cs with
  | nil => rfl
  | cons x xs ih =>
    by_cases hx : x = o
    · subst hx
      cases hl : lastIdxOf c xs with
      | none => simp [regexSpan, spanFirstLast, firstIdxOf, lastIdxOf, hl, h]
      | some k => simp [regexSpan, spanFirstLast, firstIdxOf, lastIdxOf, hl, h]
    · cases hf : firstIdxOf o xs with
      | none => simp [regexSpan, spanFirstLast, firstIdxOf, hf, hx]
      | some i =>
        have h1 : regexSpan o c (x :: xs) = regexSpan o c xs := by
          simp [regexSpan, firstIdxOf, hx, hf]
        have h2 : spanFirstLast o c (x :: xs) = spanFirstLast o c xs := by
          cases hl : lastIdxOf c xs with
          | none =>
            by_cases hxc : x = c
            · simp [spanFirstLast, firstIdxOf, lastIdxOf, hf, hl, hx, hxc, Ne.symm h]
            · simp [spanFirstLast, firstIdxOf, lastIdxOf, hf, hl, hx, hxc]
          | some j =>
            simp [spanFirstLast, firstIdxOf, lastIdxOf, hf, hl, hx,
              Nat.succ_lt_succ_iff, Nat.succ_sub_succ]
        rw [h1, h2]
        exact ih

/-- C2: `extractJson` drops the informational and warning lines and then
returns exactly the substring of the cleaned text from the first "[" through
the last "]" when that substring exists, else from the first "{" through the
last "}", else the trimmed cleaned text. -/
theorem extractJson_first_last_span (output : String) :
    extractJson output = extractJsonSpec output := by
  simp only [extractJson, extractJsonSpec]
  rw [regexSpan_eq_spanFirstLast '[' ']' (by decide),
    regexSpan_eq_spanFirstLast '{' '}' (by decide)]

/-- Turns propositional string inequality into a `false` boolean equality
test, as needed to reduce the source's `if` conditions. -/
theorem string_beq_false_of_ne {a b : String} (h : a ≠ b) : (a == b) = false := by
  cases hv : (a == b) with
  | false => rfl
  | true => exact absurd (by simpa using hv) h

/-- C3: when the JSON-format invocation of `listNotes` fails (and the
embedded-JSON recovery from the error message fails as well), `listNotes`
invokes the tool again without the JSON format flag and parses its output
line by line: every line that is non-empty after trimming and is not a
`Found N note(s)` line becomes one note whose id and path are the trimmed
line and whose title is the last path segment with a trailing ".md" removed
("Untitled" when that yields the empty string) — see `parsePlainLines`. -/
theorem listNotes_plain_fallback (ex : List String → Except String String)
    (parse : String → Except String Json) (m plainOut : String)
    (h1 : execThenParse ex parse listJsonArgs = Except.error m)
    (h2 : tryRecover parse m = none)
    (h3 : ex listPlainArgs = Except.ok plainOut) :
    (listNotesT ex parse).1 = Except.ok (parsePlainLines plainOut) := by
  simp [listNotesT, h1, h2, h3]

/-- Witness for C3: a run whose JSON parse fails falls back to line parsing,
and the line rule produces the expected note on concrete output. -/
theorem listNotes_plain_fallback_witness :
    (listNotesT
        (fun args => if args = listJsonArgs then Except.ok "not json"
          else Except.ok " \na/b.md\nFound 2 notes")
        (fun _ => Except.error "bad json")).1 =
      Except.ok (parsePlainLines " \na/b.md\nFound 2 notes") ∧
    parsePlainLines " \na/b.md\nFound 2 notes" = [⟨"a/b.md", "b", "a/b.md"⟩] :=
  ⟨listNotes_plain_fallback
      (fun args => if args = listJsonArgs then Except.ok "not json"
        else Except.ok " \na/b.md\nFound 2 notes")
      (fun _ => Except.error "bad json") "bad json" " \na/b.md\nFound 2 notes"
      (by rfl) (by rfl) (by rfl),
   by decide⟩

/-- The shared search shape always resolves with some list of notes. -/
theorem jsonListSearch_never_fails (ex : List String → Except String String)
    (parse : String → Except String Json) (args : List String) :
    ∃ notes, (jsonListSearch ex parse args).1 = Except.ok notes := by
  unfold jsonListSearch
  cases hp : execThenParse ex parse args with
  | ok r => exact ⟨r, by simp [hp]⟩
  | error m =>
    cases hr : tryRecover parse m with
    | some r => exact ⟨r, by simp [hp, hr]⟩
    | none => exact ⟨[], by simp [hp, hr]⟩

/-- When the search pipeline fails and recovery fails, the shared search
shape returns the empty list. -/
theorem jsonListSearch_empty (ex : List String → Except String String)
    (parse : String → Except String Json) (args : List String) (m : String)
    (h1 : execThenParse ex parse args = Except.error m)
    (h2 : tryRecover parse m = none) :
    (jsonListSearch ex parse args).1 = Except.ok [] := by
  simp [jsonListSearch, h1, h2]

/-- C8: `searchByTag`, `searchByDate` and `searchByLinks` never reject: they
always resolve with a list, and when the subprocess invocation or the JSON
parsing fails and the embedded-JSON recovery fails, they resolve with the
empty list instead of propagating the error. -/
theorem searches_never_reject (ex : List String → Except String String)
    (parse : String → Except String Json) (tag dateQuery linkQuery : String)
    (mode : LinkMode) :
    (∃ notes, (searchByTagT ex parse tag).1 = Except.ok notes) ∧
    (∃ notes, (searchByDateT ex parse dateQuery).1 = Except.ok notes) ∧
    (∃ notes, (searchByLinksT ex parse linkQuery mode).1 = Except.ok notes) ∧
    (∀ m, execThenParse ex parse (searchByTagArgs tag) = Except.error m →
      tryRecover parse m = none → (searchByTagT ex parse tag).1 = Except.ok []) ∧
    (∀ m, execThenParse ex parse (searchByDateArgs dateQuery) = Except.error m →
      tryRecover parse m = none → (searchByDateT ex parse dateQuery).1 = Except.ok []) ∧
    (∀ m, execThenParse ex parse (searchByLinksArgs linkQuery mode) = Except.error m →
      tryRecover parse m = none →
      (searchByLinksT ex parse linkQuery mode).1 = Except.ok []) := by
  refine ⟨jsonListSearch_never_fails ex parse _, jsonListSearch_never_fails ex parse _,
    jsonListSearch_never_fails ex parse _, ?_, ?_, ?_⟩ <;>
    exact fun m h1 h2 => jsonListSearch_empty ex parse _ m h1 h2

/-- Witness for C8: with a subprocess that always throws a non-recoverable
error, all three searches resolve with the empty list. -/
theorem searches_never_reject_witness :
    (searchByTagT (fun _ => Except.error "boom") (fun _ => Except.error "bad") "t").1 =
      Except.ok [] ∧
    (searchByDateT (fun _ => Except.error "boom") (fun _ => Except.error "bad") "today").1 =
      Except.ok [] ∧
    (searchByLinksT (fun _ => Except.error "boom") (fun _ => Except.error "bad") "n"
      LinkMode.related).1 = Except.ok [] := by
  obtain ⟨-, -, -, h4, h5, h6⟩ := searches_never_reject (fun _ => Except.error "boom")
    (fun _ => Except.error "bad") "t" "today" "n" LinkMode.related
  exact ⟨h4 "boom" (by rfl) (by rfl), h5 "boom" (by rfl) (by rfl), h6 "boom" (by rfl) (by rfl)⟩

/-- The note-mapping fallback chains agree with claim C6's missing-only
reading whenever no present field is the empty string. -/
theorem noteFromRaw_eq_missingOnly (n : RawNote) (hid : n.id ≠ some "")
    (ht : n.title ≠ some "") (hp : n.path ≠ some "") :
    noteFromRaw n = noteFromRawMissingOnly n := by
  obtain ⟨i, t, p⟩ := n
  cases i <;> cases t <;> cases p <;>
    simp_all [noteFromRaw, noteFromRawMissingOnly, jsOr]

/-- C6 counterexample: a parsed note object whose `id` field is present but
empty.  The code falls back to the `path` field (JavaScript `||` treats the
empty string as falsy), while the claim's missing-only reading keeps the
empty id, so the two disagree. -/
theorem noteFromJson_missing_only_counterexample :
    noteFromJson (Json.obj [("id", Json.str ""), ("path", Json.str "p.md")]) ≠
      noteFromJsonMissingOnly (Json.obj [("id", Json.str ""), ("path", Json.str "p.md")]) := by
  decide

/-- C6 (amended): the constructed note falls back exactly as the claim
describes — id from the JSON id, else the path, else ""; title from the JSON
title, else inferred from the path, else "Untitled"; path from the JSON
path, else the id, else "" — once "missing" is read as "missing or the empty
string" (JavaScript `||` also falls through on a present-but-empty field).
For note objects none of whose present fields is the empty string, the
claim's missing-only reading is exact. -/
theorem noteFromJson_fallback_nonempty (j : Json)
    (hid : jsonStrField j "id" ≠ some "") (ht : jsonStrField j "title" ≠ some "")
    (hp : jsonStrField j "path" ≠ some "") :
    noteFromJson j = noteFromJsonMissingOnly j :=
  noteFromRaw_eq_missingOnly (toRawNote j) hid ht hp

/-- Witness for the amended C6 on a note with a present id and path. -/
theorem noteFromJson_fallback_nonempty_witness :
    noteFromJson (Json.obj [("id", Json.str "i1"), ("path", Json.str "a/b.md")]) =
      noteFromJsonMissingOnly (Json.obj [("id", Json.str "i1"), ("path", Json.str "a/b.md")]) :=
  noteFromJson_fallback_nonempty (Json.obj [("id", Json.str "i1"), ("path", Json.str "a/b.md")])
    (by decide) (by decide) (by decide)

/-- The tag/date/link searches perform exactly one subprocess invocation. -/
theorem jsonListSearch_trace (ex : List String → Except String String)
    (parse : String → Except String Json) (args : List String) :
    (jsonListSearch ex parse args).2 = [args] := by
  unfold jsonListSearch
  cases hp : execThenParse ex parse args with
  | ok r => simp [hp]
  | error m =>
    cases hr : tryRecover parse m with
    | some r => simp [hp, hr]
    | none => simp [hp, hr]

/-- `listNotes` performs either one invocation (JSON path, possibly with
recovery from the error message) or two (plain-text fallback). -/
theorem listNotesT_trace (ex : List String → Except String String)
    (parse : String → Except String Json) :
    (listNotesT ex parse).2 = [listJsonArgs] ∨
      (listNotesT ex parse).2 = [listJsonArgs, listPlainArgs] := by
  unfold listNotesT
  cases hp : execThenParse ex parse listJsonArgs with
  | ok r => left; simp [hp]
  | error m =>
    cases hr : tryRecover parse m with
    | some r => left; simp [hp, hr]
    | none =>
      cases hf : ex listPlainArgs with
      | ok out => right; simp [hp, hr, hf]
      | error fm => right; simp [hp, hr, hf]

/-- The match search performs its own invocation and, on its fallback path,
additionally the invocations of `listNotes`. -/
theorem searchNotesMatchT_trace (ex : List String → Except String String)
    (parse : String → Except String Json) (query : String) :
    (searchNotesMatchT ex parse query).2 = [searchMatchArgs query] ∨
      (searchNotesMatchT ex parse query).2 =
        searchMatchArgs query :: (listNotesT ex parse).2 := by
  unfold searchNotesMatchT
  cases hp : execThenParse ex parse (searchMatchArgs query) with
  | ok r => left; simp [hp]
  | error m =>
    cases hr : tryRecover parse m with
    | some r => left; simp [hp, hr]
    | none =>
      cases hl : listNotesT ex parse with
      | mk res tr =>
        cases res with
        | ok allNotes => right; simp [hp, hr, hl]
        | error fm => right; simp [hp, hr, hl]

/-- Invocation-count bounds for `listNotes`. -/
theorem listNotesT_trace_bounds (ex : List String → Except String String)
    (parse : String → Except String Json) :
    1 ≤ (listNotesT ex parse).2.length ∧ (listNotesT ex parse).2.length ≤ 2 := by
  rcases listNotesT_trace ex parse with h | h <;> rw [h] <;> exact ⟨by simp, by simp⟩

/-- Invocation-count bounds for `searchNotes`. -/
theorem searchNotesT_trace_bounds (ex : List String → Except String String)
    (parse : String → Except String Json) (query : String) :
    1 ≤ (searchNotesT ex parse query).2.length ∧
      (searchNotesT ex parse query).2.length ≤ 3 := by
  have hone : ∀ args, 1 ≤ (jsonListSearch ex parse args).2.length ∧
      (jsonListSearch ex parse args).2.length ≤ 3 := fun args => by
    rw [jsonListSearch_trace]
    exact ⟨by simp, by simp⟩
  have hlist := listNotesT_trace_bounds ex parse
  have hlist3 : 1 ≤ (listNotesT ex parse).2.length ∧ (listNotesT ex parse).2.length ≤ 3 :=
    ⟨hlist.1, le_trans hlist.2 (by norm_num)⟩
  have hmatch : 1 ≤ (searchNotesMatchT ex parse query).2.length ∧
      (searchNotesMatchT ex parse query).2.length ≤ 3 := by
    rcases searchNotesMatchT_trace ex parse query with h | h <;> rw [h]
    · exact ⟨by simp, by simp⟩
    · refine ⟨by simp, ?_⟩
      have := hlist.2
      simp only [List.length_cons]
      omega
  simp only [searchNotesT]
  repeat' split
  all_goals first
    | exact hone _
    | exact hlist3
    | exact hmatch

/-- C4 counterexample: a single call to `listNotes` whose JSON output fails to
parse performs two subprocess invocations, not one (and `searchNotes` reaches
`listNotes` both for empty queries, via the UI, and on its own fallback
path). -/
theorem listNotes_two_invocations_counterexample :
    (listNotesT (fun _ => Except.ok "no json here") (fun _ => Except.error "bad")).2.length = 2 ∧
    ¬(listNotesT (fun _ => Except.ok "no json here")
        (fun _ => Except.error "bad")).2.length = 1 := by
  constructor
  · rfl
  · decide

/-- C4 (amended): every search performs its subprocess invocations strictly
sequentially (the embedding is a sequential trace, so no two invocations
overlap), and exactly one invocation occurs whenever the primary JSON
invocation succeeds and parses; fallback paths add further sequential
invocations, to at most two per `listNotes` call and at most three per
`searchNotes` call. -/
theorem search_invocation_bounds (ex : List String → Except String String)
    (parse : String → Except String Json) (query : String) :
    1 ≤ (listNotesT ex parse).2.length ∧ (listNotesT ex parse).2.length ≤ 2 ∧
    1 ≤ (searchNotesT ex parse query).2.length ∧
    (searchNotesT ex parse query).2.length ≤ 3 ∧
    (∀ notes, execThenParse ex parse listJsonArgs = Except.ok notes →
      (listNotesT ex parse).2 = [listJsonArgs]) := by
  have hl := listNotesT_trace_bounds ex parse
  have hs := searchNotesT_trace_bounds ex parse query
  refine ⟨hl.1, hl.2, hs.1, hs.2, ?_⟩
  intro notes h
  simp [listNotesT, h]

/-- Witness for the amended C4: a successful primary invocation yields a
one-element trace. -/
theorem search_invocation_bounds_witness :
    (listNotesT (fun _ => Except.ok "[]") (fun _ => Except.ok (Json.arr []))).2 =
      [listJsonArgs] :=
  (search_invocation_bounds (fun _ => Except.ok "[]") (fun _ => Except.ok (Json.arr []))
    "q").2.2.2.2 [] (by rfl)

/-- C10: `searchNotes` dispatches on the query's first character: "#" routes
to tag search, "@" to date search, ">" to linked-by, "<" to link-to, "~" to
related, and "!orphan"/"!orphans" (case-insensitive after trimming) to the
orphan search; a query that is just a prefix character followed by nothing
but whitespace returns the full `listNotes` result, and a "!" query with any
other suffix falls through to the regular match search. -/
theorem searchNotes_dispatch (ex : List String → Except String String)
    (parse : String → Except String Json) (query : String) :
    (jsStartsWith query "#" = true → jsTrim (jsDrop 1 query) ≠ "" →
      searchNotesT ex parse query = searchByTagT ex parse (jsTrim (jsDrop 1 query))) ∧
    (jsStartsWith query "@" = true → jsTrim (jsDrop 1 query) ≠ "" →
      searchNotesT ex parse query = searchByDateT ex parse (jsTrim (jsDrop 1 query))) ∧
    (jsStartsWith query ">" = true → jsTrim (jsDrop 1 query) ≠ "" →
      searchNotesT ex parse query =
        searchByLinksT ex parse (jsTrim (jsDrop 1 query)) LinkMode.linkedBy) ∧
    (jsStartsWith query "<" = true → jsTrim (jsDrop 1 query) ≠ "" →
      searchNotesT ex parse query =
        searchByLinksT ex parse (jsTrim (jsDrop 1 query)) LinkMode.linkTo) ∧
    (jsStartsWith query "~" = true → jsTrim (jsDrop 1 query) ≠ "" →
      searchNotesT ex parse query =
        searchByLinksT ex parse (jsTrim (jsDrop 1 query)) LinkMode.related) ∧
    (jsStartsWith query "!" = true →
      (asciiLower (jsTrim (jsDrop 1 query)) = "orphan" ∨
        asciiLower (jsTrim (jsDrop 1 query)) = "orphans") →
      searchNotesT ex parse query = searchByLinksT ex parse "" LinkMode.orphan) ∧
    ((jsStartsWith query "#" = true ∨ jsStartsWith query "@" = true ∨
        jsStartsWith query ">" = true ∨ jsStartsWith query "<" = true ∨
        jsStartsWith query "~" = true) → jsTrim (jsDrop 1 query) = "" →
      searchNotesT ex parse query = listNotesT ex parse) ∧
    (jsStartsWith query "!" = true →
      asciiLower (jsTrim (jsDrop 1 query)) ≠ "orphan" →
      asciiLower (jsTrim (jsDrop 1 query)) ≠ "orphans" →
      searchNotesT ex parse query = searchNotesMatchT ex parse query) := by
  refine ⟨?_, ?_, ?_, ?_, ?_, ?_, ?_, ?_⟩
  · intro h1 h2
    simp [searchNotesT, h1, string_beq_false_of_ne h2]
  · intro h1 h2
    have f1 := @jsStartsWith_char_false query '@' '#' (by decide) h1
    simp [searchNotesT, f1, h1, string_beq_false_of_ne h2]
  · intro h1 h2
    have f1 := @jsStartsWith_char_false query '>' '#' (by decide) h1
    have f2 := @jsStartsWith_char_false query '>' '@' (by decide) h1
    simp [searchNotesT, f1, f2, h1, string_beq_false_of_ne h2]
  · intro h1 h2
    have f1 := @jsStartsWith_char_false query '<' '#' (by decide) h1
    have f2 := @jsStartsWith_char_false query '<' '@' (by decide) h1
    have f3 := @jsStartsWith_char_false query '<' '>' (by decide) h1
    simp [searchNotesT, f1, f2, f3, h1, string_beq_false_of_ne h2]
  · intro h1 h2
    have f1 := @jsStartsWith_char_false query '~' '#' (by decide) h1
    have f2 := @jsStartsWith_char_false query '~' '@' (by decide) h1
    have f3 := @jsStartsWith_char_false query '~' '>' (by decide) h1
    have f4 := @jsStartsWith_char_false query '~' '<' (by decide) h1
    simp [searchNotesT, f1, f2, f3, f4, h1, string_beq_false_of_ne h2]
  · intro h1 h2
    have f1 := @jsStartsWith_char_false query '!' '#' (by decide) h1
    have f2 := @jsStartsWith_char_false query '!' '@' (by decide) h1
    have f3 := @jsStartsWith_char_false query '!' '>' (by decide) h1
    have f4 := @jsStartsWith_char_false query '!' '<' (by decide) h1
    have f5 := @jsStartsWith_char_false query '!' '~' (by decide) h1
    rcases h2 with ho | ho <;> simp [searchNotesT, f1, f2, f3, f4, f5, h1, ho]
  · intro hpre he
    have hbeq : (jsTrim (jsDrop 1 query) == "") = true := by simp [he]
    rcases hpre with h | h | h | h | h
    · simp [searchNotesT, h, hbeq]
    · have f1 := @jsStartsWith_char_false query '@' '#' (by decide) h
      simp [searchNotesT, f1, h, hbeq]
    · have f1 := @jsStartsWith_char_false query '>' '#' (by decide) h
      have f2 := @jsStartsWith_char_false query '>' '@' (by decide) h
      simp [searchNotesT, f1, f2, h, hbeq]
    · have f1 := @jsStartsWith_char_false query '<' '#' (by decide) h
      have f2 := @jsStartsWith_char_false query '<' '@' (by decide) h
      have f3 := @jsStartsWith_char_false query '<' '>' (by decide) h
      simp [searchNotesT, f1, f2, f3, h, hbeq]
    · have f1 := @jsStartsWith_char_false query '~' '#' (by decide) h
      have f2 := @jsStartsWith_char_false query '~' '@' (by decide) h
      have f3 := @jsStartsWith_char_false query '~' '>' (by decide) h
      have f4 := @jsStartsWith_char_false query '~' '<' (by decide) h
      simp [searchNotesT, f1, f2, f3, f4, h, hbeq]
  · intro h1 hn1 hn2
    have f1 := @jsStartsWith_char_false query '!' '#' (by decide) h1
    have f2 := @jsStartsWith_char_false query '!' '@' (by decide) h1
    have f3 := @jsStartsWith_char_false query '!' '>' (by decide) h1
    have f4 := @jsStartsWith_char_false query '!' '<' (by decide) h1
    have f5 := @jsStartsWith_char_false query '!' '~' (by decide) h1
    simp [searchNotesT, f1, f2, f3, f4, f5, h1,
      string_beq_false_of_ne hn1, string_beq_false_of_ne hn2]

/-- Witness for C10: "#t" routes to the tag search with tag "t". -/
theorem searchNotes_dispatch_witness :
    searchNotesT (fun _ => Except.error "E") (fun _ => Except.error "P") "#t" =
      searchByTagT (fun _ => Except.error "E") (fun _ => Except.error "P") "t" :=
  (searchNotes_dispatch (fun _ => Except.error "E") (fun _ => Except.error "P") "#t").1
    (by rfl) (by decide)
